import Mathlib

/-!
Verification development for the hungkuk REST client.

The definitions below are a shallow embedding of the Go sources:
  - `src/rest/request.go` — the request builder, URL composition, the
    attempt executor `tryOnce` and the retry loop `Do`;
  - the current `Result` revision (the one with a `StatusCode` accessor and
    no status-based decode error) — `Into` and `StatusCode`.

Go maps (`url.Values`, `http.Header`) are modelled as association lists
from keys to value lists; Go errors are modelled by explicit inductive
types; the HTTP transport (`client.Do`) is an oracle indexed by the number
of transport invocations made so far, so theorems can count exactly how
many times the wire is touched; the stdlib URL parser and `fmt.Sprintf`
are abstract parameters bundled in `Stdlib`.
-/

namespace rest

/-- Association-list model of Go `url.Values` / `http.Header`: keys mapped
to lists of values.  Go maps have unique keys; lists built from `[]` via
`Values.add` keep that invariant. -/
abbrev Values := List (String × List String)

/-- Model of a Go error value as classified by `isConnectionReset`
(src/rest/request.go lines 268-286): nested wrapping layers
(`*url.Error`, `*net.OpError`, `*os.SyscallError`) around a raw errno or
any other error. -/
inductive NetErr where
  | urlError (inner : NetErr)
  | opError (inner : NetErr)
  | syscallError (inner : NetErr)
  | errno (n : Nat)
  | other (msg : String)
deriving DecidableEq

/-- The Linux errno value of ECONNRESET. -/
def ECONNRESET : Nat := 104

/-- Translation of `isConnectionReset` (src/rest/request.go lines
268-286): unwrap at most one `*url.Error`, then at most one
`*net.OpError`, then at most one `*os.SyscallError`, in that order, and
test whether what remains is the errno ECONNRESET. -/
def isConnectionReset (e : NetErr) : Bool :=
  let e1 := match e with
    | NetErr.urlError inner => inner
    | x => x
  let e2 := match e1 with
    | NetErr.opError inner => inner
    | x => x
  let e3 := match e2 with
    | NetErr.syscallError inner => inner
    | x => x
  match e3 with
  | NetErr.errno n => n == ECONNRESET
  | _ => false

/-- The errors the embedded code can store: `url.Parse` failures,
`http.NewRequest` failures, `client.Do` failures, response-body read
failures, `json.Marshal` failures, `errors.New` sentinels, and the two
decode-time errors of the current `Result` revision. -/
inductive GoError where
  | urlParse (raw : String)
  | invalidMethod (m : String)
  | transport (e : NetErr)
  | bodyRead (msg : String)
  | marshal (msg : String)
  | goNew (msg : String)
  | emptyBody (statusCode : Int)
  | decodeErr (msg : String)
deriving DecidableEq

/-- Model of Go `url.Values.Add` / `http.Header.Add` on the association
list: append the value to the entry of the key, creating the entry if
absent. -/
def Values.add (vs : Values) (key value : String) : Values :=
  match vs with
  | [] => [(key, [value])]
  | p :: rest =>
      if p.1 = key then (p.1, p.2 ++ [value]) :: rest
      else p :: Values.add rest key value

/-- Model of Go `url.Values.Set` / `http.Header.Set` on the association
list: the key now maps to exactly the one given value. -/
def Values.set (vs : Values) (key value : String) : Values :=
  vs.filter (fun p => !(p.1 == key)) ++ [(key, [value])]

/-- Model of Go `http.Header.Del`: drop every entry of the key. -/
def Values.del (vs : Values) (key : String) : Values :=
  vs.filter (fun p => !(p.1 == key))

/-- All values stored under a key, in order (the map lookup, flattened
over possibly duplicated alist entries). -/
def Values.get (vs : Values) (key : String) : List String :=
  ((vs.filter (fun p => p.1 == key)).map (fun p => p.2)).flatten

/-- First entry stored under a key, as Go map indexing would find it. -/
def headerEntry (vs : Values) (key : String) : Option (List String) :=
  (vs.find? (fun p => p.1 == key)).map (fun p => p.2)

/-- UTF-8 encoding of one code point as its byte values. -/
def charUTF8 (c : Char) : List Nat :=
  let n := c.toNat
  if n < 128 then [n]
  else if n < 2048 then [192 + n / 64, 128 + n % 64]
  else if n < 65536 then [224 + n / 4096, 128 + (n / 64) % 64, 128 + n % 64]
  else [240 + n / 262144, 128 + (n / 4096) % 64, 128 + (n / 64) % 64, 128 + n % 64]

/-- UTF-8 bytes of a string, as Go ranges over a string's bytes. -/
def utf8Bytes (s : String) : List Nat := s.data.flatMap charUTF8

/-- The bytes Go `url.shouldEscape` leaves unescaped in a query
component: ASCII letters, digits and the marks `-._~`. -/
def isUnreservedByte (b : Nat) : Bool :=
  (65 ≤ b && b ≤ 90) || (97 ≤ b && b ≤ 122) || (48 ≤ b && b ≤ 57) ||
    b == 45 || b == 46 || b == 95 || b == 126

/-- Uppercase hexadecimal digit, as Go percent-escaping renders it. -/
def hexUpperDigit (n : Nat) : Char :=
  if n < 10 then Char.ofNat (48 + n) else Char.ofNat (55 + n)

/-- One byte of Go `url.QueryEscape` output: unreserved bytes kept, the
space byte rendered as a plus sign, everything else percent-escaped. -/
def escapeByte (b : Nat) : List Char :=
  if isUnreservedByte b then [Char.ofNat b]
  else if b == 32 then [Char.ofNat 43]
  else [Char.ofNat 37, hexUpperDigit (b / 16), hexUpperDigit (b % 16)]

/-- Model of Go `url.QueryEscape`, applied byte-wise to the UTF-8
encoding of the string. -/
def queryEscape (s : String) : String :=
  String.mk ((utf8Bytes s).flatMap escapeByte)

/-- Byte-wise less-or-equal on char lists, the order `sort.Strings` uses
(only alists with unique keys are ever sorted here, so ties are
immaterial). -/
def charsLe : List Char → List Char → Bool
  | [], _ => true
  | _ :: _, [] => false
  | a :: as, b :: bs => if a = b then charsLe as bs else decide (a.toNat ≤ b.toNat)

/-- Key order for the encoder's sorted key sequence. -/
def keyLe (a b : String) : Bool := charsLe a.data b.data

/-- Insertion step of the key sort. -/
def insertSorted (p : String × List String) : Values → Values
  | [] => [p]
  | q :: rest => if keyLe p.1 q.1 then p :: q :: rest else q :: insertSorted p rest

/-- Model of `sort.Strings` over the map keys in `url.Values.Encode`. -/
def sortByKey (vs : Values) : Values := vs.foldr insertSorted []

/-- The buffer-join of `url.Values.Encode`: pieces separated by single
ampersands, no leading separator. -/
def joinAmp : List String → String
  | [] => ""
  | [s] => s
  | s :: t :: rest => s ++ "&" ++ joinAmp (t :: rest)

/-- Model of Go `url.Values.Encode`: keys sorted, then for each key every
value emitted as `escapedKey=escapedValue`, joined with ampersands. -/
def Values.Encode (vs : Values) : String :=
  joinAmp ((sortByKey vs).flatMap
    (fun p => p.2.map (fun v => queryEscape p.1 ++ "=" ++ queryEscape v)))

/-- The fields of Go `url.URL` this development uses. -/
structure GoURL where
  scheme : String := ""
  host : String := ""
  path : String := ""
  rawQuery : String := ""
deriving DecidableEq

/-- Model of `url.URL.String` for the fields carried here. -/
def GoURL.string (u : GoURL) : String :=
  (if u.scheme ≠ "" then u.scheme ++ ":" else "") ++
    (if u.host ≠ "" then "//" ++ u.host else "") ++
    u.path ++
    (if u.rawQuery ≠ "" then "?" ++ u.rawQuery else "")

/-- The stdlib functions the embedding leaves abstract: `url.Parse`
(`none` models a parse error) and `fmt.Sprintf` over the sub-path
template. -/
structure Stdlib where
  parseURL : String → Option GoURL
  sprintf : String → List String → String

/-- Model of `time.Duration.String` (the exact rendering is immaterial to
the claims; only that the timeout query value is this single string). -/
def durationString (d : Int) : String := toString d ++ "ns"

/-- Translation of the `request` struct (src/rest/request.go lines
34-50).  The `*http.Client` field is subsumed by the transport oracle
passed to `Do`/`tryOnce`; the context is modelled by its presence. -/
structure request where
  method : String := ""
  params : Values := []
  header : Values := []
  body : List Nat := []
  ctx : Bool := false
  baseURL : String := ""
  subPath : String := ""
  subPathArgs : List String := []
  retryCount : Int := 0
  retryInterval : Int := 0
  timeout : Int := 0
  username : String := ""
  password : String := ""
  err : Option GoError := none
deriving DecidableEq

/-- Translation of the current `result` struct: body bytes, terminal
error, status code. -/
structure result where
  body : List Nat := []
  err : Option GoError := none
  statusCode : Int := 0
deriving DecidableEq

/-- Translation of `WithParam` (src/rest/request.go lines 53-61): append
the value under the name (a nil map is created empty first; `[]` plays
that role here). -/
def WithParam (r : request) (name value : String) : request :=
  { r with params := Values.add r.params name value }

/-- Translation of `WithParams` (lines 63-73): add every pair of the map.
Go iterates the map in unspecified order; the list order stands in for
one such order. -/
def WithParams (r : request) (ps : List (String × String)) : request :=
  { r with params := ps.foldl (fun acc p => Values.add acc p.1 p.2) r.params }

/-- Translation of `WithHeader` (lines 75-88): a first call adopts the
given header wholesale, later calls add every value. -/
def WithHeader (r : request) (h : Values) : request :=
  if r.header = [] then { r with header := h }
  else
    { r with header :=
        h.foldl (fun acc p => p.2.foldl (fun a v => Values.add a p.1 v) acc) r.header }

/-- Translation of `WithContext` (lines 90-93): store the caller context
(modelled by its presence). -/
def WithContext (r : request) : request := { r with ctx := true }

/-- Translation of `WithTimeout` (lines 95-98). -/
def WithTimeout (r : request) (d : Int) : request := { r with timeout := d }

/-- Translation of `WithMaxRetry` (lines 100-103). -/
def WithMaxRetry (r : request) (count : Int) : request := { r with retryCount := count }

/-- Translation of `WithRetryInterval` (lines 105-108). -/
def WithRetryInterval (r : request) (d : Int) : request := { r with retryInterval := d }

/-- Translation of `subResource` (lines 115-119): strip leading slashes
(`strings.TrimLeft(subPath, "/")`) and store the sub-path. -/
def subResource (r : request) (subPath : String) : request :=
  { r with subPath := String.mk (subPath.data.dropWhile (fun c => c = Char.ofNat 47)) }

/-- Translation of `SubResourcef` (lines 110-113). -/
def SubResourcef (r : request) (subPath : String) (args : List String) : request :=
  subResource { r with subPathArgs := args } subPath

/-- Model of the `interface` body value handed to `Body`, by its
`json.Marshal` outcome: the nil value, a value that serializes to the
given bytes, or a value whose serialization fails. -/
inductive BodyVal where
  | null
  | jsonOk (data : List Nat)
  | jsonErr (msg : String)
deriving DecidableEq

/-- Translation of `Body` (lines 121-137): nil body yields empty bytes; a
serialization failure records the error as the terminal construction
error and substitutes empty bytes; otherwise the serialized bytes are
stored. -/
def Body (r : request) (b : BodyVal) : request :=
  match b with
  | BodyVal.null => { r with body := [] }
  | BodyVal.jsonErr msg => { r with err := some (GoError.marshal msg), body := [] }
  | BodyVal.jsonOk data => { r with body := data }

/-- Translation of the query-building section of `wrapURL` (lines
156-165): copy every parameter value into a fresh `url.Values` via `Add`,
then force the `timeout` key via `Set` when a non-zero timeout is
configured. -/
def buildQuery (r : request) : Values :=
  let query := r.params.foldl (fun q p => p.2.foldl (fun q2 v => Values.add q2 p.1 v) q) []
  if r.timeout ≠ 0 then Values.set query "timeout" (durationString r.timeout) else query

/-- The sub-path as appended to the base path (lines 150-154): rendered
as a format template when positional arguments are present. -/
def subPathRendered (lib : Stdlib) (r : request) : String :=
  if r.subPathArgs.length > 0 then lib.sprintf r.subPath r.subPathArgs else r.subPath

/-- Translation of `wrapURL` (lines 139-170).  A parse failure of a
non-empty base URL records the error on the request and returns a fresh
empty URL at once; otherwise the sub-path is appended to the base path
and the encoded query is attached. -/
def wrapURL (lib : Stdlib) (r : request) : request × GoURL :=
  if r.baseURL.length ≠ 0 then
    match lib.parseURL r.baseURL with
    | none => ({ r with err := some (GoError.urlParse r.baseURL) }, {})
    | some u =>
        (r, { u with path := u.path ++ subPathRendered lib r,
                     rawQuery := Values.Encode (buildQuery r) })
  else
    (r, { path := subPathRendered lib r, rawQuery := Values.Encode (buildQuery r) })

/-- Boundary of `http.NewRequest`: the verbs the factory in the client
file produces are all valid HTTP method tokens, so request construction
succeeds exactly for them in this model. -/
def validMethod (m : String) : Bool :=
  m == "GET" || m == "POST" || m == "PUT" || m == "PATCH" || m == "DELETE"

/-- Model of the stdlib credential rendering inside
`http.Request.SetBasicAuth` (base64 of `user:pass`; the carrier string is
modelled by the raw pair, which is all the development inspects). -/
def basicAuthEncode (username password : String) : String :=
  username ++ ":" ++ password

/-- The wire request handed to the transport. -/
structure wireRequest where
  method : String := ""
  url : String := ""
  body : List Nat := []
  header : Values := []
  hasCtx : Bool := false
deriving DecidableEq

/-- Translation of the header and authentication section of `tryOnce`
(lines 220-230): clone the configured headers (an empty clone is replaced
by a fresh map, which `[]` already is), delete `Accept-Encoding`, force
the three content-negotiation headers, and unconditionally apply
`SetBasicAuth`, which sets the `Authorization` header. -/
def buildWireRequest (r : request) (u : String) : wireRequest :=
  let hdr := Values.del r.header "Accept-Encoding"
  let hdr := Values.set hdr "Content-Type" "application/json"
  let hdr := Values.set hdr "Accept" "application/json"
  let hdr := Values.set hdr "Accept-Charset" "utf-8"
  let hdr := Values.set hdr "Authorization" ("Basic " ++ basicAuthEncode r.username r.password)
  { method := r.method, url := u, body := r.body, header := hdr, hasCtx := r.ctx }

/-- Outcome of reading the response body (`resp.Body` nil, a full read,
the retryable `io.ErrUnexpectedEOF`, or another read error). -/
inductive BodyOutcome where
  | ok (data : List Nat)
  | noBody
  | unexpectedEOF
  | readErr (msg : String)
deriving DecidableEq

/-- Outcome of one `client.Do` dispatch. -/
inductive TransportOutcome where
  | err (e : NetErr)
  | ok (statusCode : Int) (body : BodyOutcome)
deriving DecidableEq

/-- Execution state threaded through attempts: the (mutated) request and
the number of `client.Do` invocations made so far. -/
structure ExecState where
  r : request
  calls : Nat
deriving DecidableEq

/-- The transport oracle: what `client.Do` returns for the n-th
invocation (0-based) given the wire request it receives. -/
abbrev Transport := Nat → wireRequest → TransportOutcome

/-- Translation of `tryOnce` (lines 197-266).  Builds the URL (which may
record a parse error on the request and still proceed), constructs the
wire request, derives the per-attempt context when a timeout is set,
dispatches once through the transport, and classifies the outcome: a
connection-reset transport error on a GET and an unexpected-EOF body read
are retryable; every other failure is fatal; a full read is success. -/
def tryOnce (lib : Stdlib) (tr : Transport) (s : ExecState) : ExecState × result × Bool :=
  let ru := wrapURL lib s.r
  let r := ru.1
  if validMethod r.method = false then
    (⟨r, s.calls⟩, { err := some (GoError.invalidMethod r.method) }, false)
  else
    let r := if r.timeout > 0 then { r with ctx := true } else r
    let req := buildWireRequest r (GoURL.string ru.2)
    match tr s.calls req with
    | TransportOutcome.err e =>
        if isConnectionReset e = false ∨ r.method ≠ "GET" then
          (⟨r, s.calls + 1⟩, { err := some (GoError.transport e) }, false)
        else
          (⟨r, s.calls + 1⟩, {}, true)
    | TransportOutcome.ok code b =>
        match b with
        | BodyOutcome.noBody => (⟨r, s.calls + 1⟩, { body := [], statusCode := code }, false)
        | BodyOutcome.unexpectedEOF => (⟨r, s.calls + 1⟩, {}, true)
        | BodyOutcome.readErr msg =>
            (⟨r, s.calls + 1⟩, { err := some (GoError.bodyRead msg) }, false)
        | BodyOutcome.ok data =>
            (⟨r, s.calls + 1⟩, { body := data, statusCode := code }, false)

/-- The bounded retry loop of `Do` (lines 185-190 and 192): run `tryOnce`
up to the remaining fuel; a non-retryable outcome returns at once;
exhausting the fuel stamps the generic `unexpected error` on the result
of the last attempt. -/
def doRetryLoop (lib : Stdlib) (tr : Transport) : Nat → ExecState → result → result × ExecState
  | 0, s, rt => ({ rt with err := some (GoError.goNew "unexpected error") }, s)
  | Nat.succ n, s, _ =>
      let step := tryOnce lib tr s
      if step.2.2 then doRetryLoop lib tr n step.1 step.2.1
      else (step.2.1, step.1)

/-- Translation of `Do` (lines 172-195): a set terminal construction
error short-circuits with no attempt; otherwise one attempt runs, and a
retryable outcome drives the loop for up to `retryCount` more attempts
(`for try := 0; try < r.retryCount; try++`, i.e. `retryCount.toNat`
iterations). -/
def Do (lib : Stdlib) (tr : Transport) (r : request) : result × ExecState :=
  if r.err.isSome then ({ err := r.err }, ⟨r, 0⟩)
  else
    let s0 : ExecState := ⟨r, 0⟩
    let first := tryOnce lib tr s0
    if first.2.2 = false then (first.2.1, first.1)
    else doRetryLoop lib tr first.1.r.retryCount.toNat first.1 first.2.1

/-- Translation of the current revision of `Into`: a set terminal error
is surfaced unchanged; with a target present, an empty body is an error,
otherwise the stored bytes are decoded (`dec` is the `json` decode
boundary for the target shape: `none` is success, `some msg` a decode
failure).  The second component is the result state after the call; no
field of the receiver is ever written, so it is the receiver itself. -/
def Into (dec : List Nat → Option String) (r : result) (objPresent : Bool) :
    Option GoError × result :=
  if r.err.isSome then (r.err, r)
  else if objPresent then
    if r.body.length = 0 then (some (GoError.emptyBody r.statusCode), r)
    else
      match dec r.body with
      | some msg => (some (GoError.decodeErr msg), r)
      | none => (none, r)
  else (none, r)

/-- Locations an `*int` in the `StatusCode` accessor can designate: the
caller's integer cell, or the result's own `statusCode` field. -/
inductive IntPtr where
  | callerCell
  | resultField
deriving DecidableEq

/-- Translation of the `StatusCode` accessor: `statusCode` is the local
parameter holding the caller's pointer, `callerVal` the integer stored in
the caller's cell.  The body's assignment `statusCode = &r.statusCode`
rebinds only the local parameter to the result's own field; no store
through the pointer happens, and the receiver is returned.  The triple
returned is (receiver returned, caller's cell after the call, final value
of the local parameter). -/
def StatusCode (r : result) (callerVal : Int) (statusCode : Option IntPtr) :
    result × Int × Option IntPtr :=
  let statusCode := if statusCode.isSome then some IntPtr.resultField else statusCode
  (r, callerVal, statusCode)

/-- One chained builder operation (each setter of the fluent interface). -/
inductive BuilderOp where
  | withParam (name value : String)
  | withParams (ps : List (String × String))
  | withHeader (h : Values)
  | withContext
  | withTimeout (d : Int)
  | withMaxRetry (n : Int)
  | withRetryInterval (d : Int)
  | subResourcef (template : String) (args : List String)
  | bodyOp (b : BodyVal)
deriving DecidableEq

/-- Apply one builder operation. -/
def applyOp (r : request) : BuilderOp → request
  | BuilderOp.withParam n v => WithParam r n v
  | BuilderOp.withParams ps => WithParams r ps
  | BuilderOp.withHeader h => WithHeader r h
  | BuilderOp.withContext => WithContext r
  | BuilderOp.withTimeout d => WithTimeout r d
  | BuilderOp.withMaxRetry n => WithMaxRetry r n
  | BuilderOp.withRetryInterval d => WithRetryInterval r d
  | BuilderOp.subResourcef t args => SubResourcef r t args
  | BuilderOp.bodyOp b => Body r b

/-- Apply a chain of builder operations left to right. -/
def applyOps (ops : List BuilderOp) (r : request) : request := ops.foldl applyOp r

/-- Toy stdlib instance whose URL parser rejects everything (as Go
url.Parse rejects for instance the string of a lone colon). -/
def toyLib : Stdlib := { parseURL := fun _ => none, sprintf := fun s _ => s }

/-- Transport that reports a wrapped ECONNRESET on every invocation. -/
def trReset : Transport := fun _ _ =>
  TransportOutcome.err (NetErr.urlError (NetErr.opError (NetErr.syscallError (NetErr.errno 104))))

/-- A GET configuration with two additional retries allowed. -/
def reqGET : request := { method := "GET", retryCount := 2 }

/-- Transport whose first dispatch fails reading the body with
unexpected EOF and whose second dispatch succeeds. -/
def trEOF : Transport := fun i _ =>
  if i = 0 then TransportOutcome.ok 200 BodyOutcome.unexpectedEOF
  else TransportOutcome.ok 200 (BodyOutcome.ok [49])

/-- A POST configuration with one additional retry allowed. -/
def reqPOST : request := { method := "POST", retryCount := 1 }

/-- Transport that reports a non-reset failure on every invocation. -/
def trRefused : Transport := fun _ _ => TransportOutcome.err (NetErr.other "connection refused")

/-- Transport that fails every dispatch with a plain dial error. -/
def trDial : Transport := fun _ _ => TransportOutcome.err (NetErr.other "dial")

/-- A GET configuration whose base URL is the lone colon, which Go
url.Parse rejects (missing protocol scheme); the toy parser rejects it
likewise. -/
def reqBadURL : request := { method := "GET", baseURL := ":" }

/-- Whether a builder operation is a body set whose serialization
fails. -/
def isFailingBody : BuilderOp → Bool
  | BuilderOp.bodyOp (BodyVal.jsonErr _) => true
  | _ => false

/-- Decoder that rejects every byte sequence (a target shape no body
matches). -/
def dec0 : List Nat → Option String := fun _ => some "bad json"

/-- A result holding a terminal error. -/
def resErr : result := { err := some (GoError.goNew "boom") }

/-- A result holding a non-empty body and a non-200 status. -/
def resBody : result := { body := [1, 2], statusCode := 500 }

/-- A request whose terminal construction error is already set. -/
def reqErr : request := { err := some (GoError.marshal "boom") }

/-- A chain of builder operations containing no failing body set. -/
def opsW : List BuilderOp := [BuilderOp.withParam "a" "b", BuilderOp.withTimeout 7]

/-- A configuration with a five-unit timeout and a caller-supplied
timeout parameter next to an ordinary one. -/
def req10 : request := { params := [("timeout", ["9"]), ("a", ["1"])], timeout := 5 }

/-- The same configuration with no timeout configured. -/
def req10z : request := { params := [("timeout", ["9"]), ("a", ["1"])], timeout := 0 }

/-- The request returned by `wrapURL` differs from its argument at most
in the recorded error. -/
theorem wrapURL_shape (lib : Stdlib) (r : request) :
    ∃ e, (wrapURL lib r).1 = { r with err := e } := by
  unfold wrapURL
  split
  · rcases h : lib.parseURL r.baseURL with _ | u
    · exact ⟨some (GoError.urlParse r.baseURL), rfl⟩
    · exact ⟨r.err, rfl⟩
  · exact ⟨r.err, rfl⟩

/-- One attempt preserves the configured method, retry bound and base
URL, and makes at most one transport invocation. -/
theorem tryOnce_fields (lib : Stdlib) (tr : Transport) (s : ExecState) :
    (tryOnce lib tr s).1.r.method = s.r.method ∧
    (tryOnce lib tr s).1.r.retryCount = s.r.retryCount ∧
    (tryOnce lib tr s).1.r.baseURL = s.r.baseURL ∧
    (tryOnce lib tr s).1.calls ≤ s.calls + 1 := by
  obtain ⟨e0, hw⟩ := wrapURL_shape lib s.r
  simp only [tryOnce, hw]
  split
  · simp
  · split <;> split <;> split <;> simp

/-- When the transport reports a connection-reset error and the method is
GET, one attempt classifies as retryable, yields an empty result, and
makes exactly one transport invocation. -/
theorem tryOnce_reset (lib : Stdlib) (tr : Transport) (errs : Nat → NetErr) (s : ExecState)
    (hm : s.r.method = "GET")
    (htr : ∀ i req, tr i req = TransportOutcome.err (errs i))
    (hres : ∀ i, isConnectionReset (errs i) = true) :
    (tryOnce lib tr s).2 = ({}, true) ∧ (tryOnce lib tr s).1.calls = s.calls + 1 := by
  obtain ⟨e0, hw⟩ := wrapURL_shape lib s.r
  simp only [tryOnce, hw, htr]
  have hvm : validMethod ({ s.r with err := e0 } : request).method = true := by
    simp [validMethod, hm]
  rw [hvm]
  simp only [Bool.true_eq_false, if_false]
  split <;> simp [hres, hm]

/-- Transport-invocation bound of the retry loop: fuel `n` adds at most
`n` invocations. -/
theorem doRetryLoop_calls_le (lib : Stdlib) (tr : Transport) :
    ∀ (n : Nat) (s : ExecState) (rt : result),
      (doRetryLoop lib tr n s rt).2.calls ≤ s.calls + n := by
  intro n
  induction n with
  | zero => intro s rt; simp [doRetryLoop]
  | succ n ih =>
      intro s rt
      simp only [doRetryLoop]
      have hf := (tryOnce_fields lib tr s).2.2.2
      split
      · exact le_trans (ih _ _) (by omega)
      · exact le_trans hf (by omega)

/-- With a connection-resetting transport and a GET method, the retry
loop burns all its fuel, one invocation per unit, and ends in the generic
exhaustion error. -/
theorem doRetryLoop_reset (lib : Stdlib) (tr : Transport) (errs : Nat → NetErr)
    (htr : ∀ i req, tr i req = TransportOutcome.err (errs i))
    (hres : ∀ i, isConnectionReset (errs i) = true) :
    ∀ (n : Nat) (s : ExecState), s.r.method = "GET" →
      (doRetryLoop lib tr n s ({} : result)).2.calls = s.calls + n ∧
      (doRetryLoop lib tr n s ({} : result)).1 =
        { err := some (GoError.goNew "unexpected error") } := by
  intro n
  induction n with
  | zero => intro s hm; simp [doRetryLoop]
  | succ n ih =>
      intro s hm
      obtain ⟨hout, hcalls⟩ := tryOnce_reset lib tr errs s hm htr hres
      have hm2 : (tryOnce lib tr s).1.r.method = "GET" := by
        rw [(tryOnce_fields lib tr s).1, hm]
      simp only [doRetryLoop, hout]
      obtain ⟨ih1, ih2⟩ := ih (tryOnce lib tr s).1 hm2
      constructor
      · simp only [if_pos]
        rw [ih1, hcalls]
        omega
      · simp only [if_pos]
        exact ih2

/-- Claim C1: for every GET configuration with retry bound `retryCount`
whose transport yields a connection-reset error on every attempt, `Do`
invokes the transport exactly `retryCount + 1` times and the final result
carries the generic exhausted-retries error (message `unexpected error`);
and no execution of `Do` ever makes more than `retryCount + 1` transport
invocations. -/
theorem C1_get_retries_exhaust (lib : Stdlib) (tr : Transport) (errs : Nat → NetErr)
    (r : request) (hm : r.method = "GET") (he : r.err = none) (hb : 0 ≤ r.retryCount)
    (htr : ∀ i req, tr i req = TransportOutcome.err (errs i))
    (hres : ∀ i, isConnectionReset (errs i) = true) :
    ((Do lib tr r).2.calls : Int) = r.retryCount + 1 ∧
    (Do lib tr r).1.err = some (GoError.goNew "unexpected error") ∧
    ∀ (lib2 : Stdlib) (tr2 : Transport) (r2 : request),
      (Do lib2 tr2 r2).2.calls ≤ r2.retryCount.toNat + 1 := by
  obtain ⟨hout, hcalls⟩ := tryOnce_reset lib tr errs ⟨r, 0⟩ hm htr hres
  obtain ⟨hfm, hfrc, _, _⟩ := tryOnce_fields lib tr ⟨r, 0⟩
  have hm2 : (tryOnce lib tr ⟨r, 0⟩).1.r.method = "GET" := by rw [hfm]; exact hm
  obtain ⟨hl1, hl2⟩ := doRetryLoop_reset lib tr errs htr hres
    ((tryOnce lib tr ⟨r, 0⟩).1.r.retryCount.toNat) (tryOnce lib tr ⟨r, 0⟩).1 hm2
  have hDo : Do lib tr r =
      doRetryLoop lib tr (tryOnce lib tr ⟨r, 0⟩).1.r.retryCount.toNat
        (tryOnce lib tr ⟨r, 0⟩).1 ({} : result) := by
    simp only [Do, he, hout]
    simp
  have hcalls2 : (tryOnce lib tr ⟨r, 0⟩).1.calls = 1 := hcalls
  have hfrc2 : (tryOnce lib tr ⟨r, 0⟩).1.r.retryCount = r.retryCount := hfrc
  refine ⟨?_, ?_, ?_⟩
  · rw [hDo, hl1, hcalls2, hfrc2]
    omega
  · rw [hDo, hl2]
  · intro lib2 tr2 r2
    obtain ⟨_, hrc2, _, hc2⟩ := tryOnce_fields lib2 tr2 ⟨r2, 0⟩
    have hc2own : (tryOnce lib2 tr2 ⟨r2, 0⟩).1.calls ≤ 1 := hc2
    have hnm : (tryOnce lib2 tr2 ⟨r2, 0⟩).1.r.retryCount.toNat = r2.retryCount.toNat := by
      rw [hrc2]
    simp only [Do]
    split
    · simp
    · split
      · exact le_trans hc2own (by omega)
      · have hb2 := doRetryLoop_calls_le lib2 tr2
          (tryOnce lib2 tr2 ⟨r2, 0⟩).1.r.retryCount.toNat (tryOnce lib2 tr2 ⟨r2, 0⟩).1
          (tryOnce lib2 tr2 ⟨r2, 0⟩).2.1
        omega

/-- Witness for C1 at a concrete GET configuration with retry bound 2 and
an always-resetting transport. -/
theorem C1_witness :
    ((Do toyLib trReset reqGET).2.calls : Int) = reqGET.retryCount + 1 ∧
    (Do toyLib trReset reqGET).1.err = some (GoError.goNew "unexpected error") := by
  have h := C1_get_retries_exhaust toyLib trReset
      (fun _ => NetErr.urlError (NetErr.opError (NetErr.syscallError (NetErr.errno 104))))
      reqGET rfl rfl (by decide) (fun i req => rfl) (fun i => rfl)
  exact ⟨h.1, h.2.1⟩

/-- Counterexample to claim C2 as stated: the POST configuration
`reqPOST` under a transport whose first attempt fails with an
unexpected-EOF body read is retried, so `Do` makes two transport
invocations, not one. -/
theorem C2_counterexample :
    reqPOST.method ≠ "GET" ∧ (Do toyLib trEOF reqPOST).2.calls = 2 := by
  constructor
  · decide
  · decide

/-- Claim C2 amended: for every request whose method is one of the
non-GET verbs, a failed transport dispatch is never retried, whatever
its classification: a `client.Do` error on the first attempt
(connection reset included) is surfaced as a fatal transport error with
exactly one transport invocation; and in general an attempt of such a
request whose dispatch errors is classified non-retryable.  (An
unexpected-EOF failure while reading the response body, by contrast, is
retried regardless of method.) -/
theorem C2_nonget_transport_failure_fatal (lib : Stdlib) (tr : Transport) (e : NetErr)
    (r : request)
    (hm : r.method = "POST" ∨ r.method = "PUT" ∨ r.method = "PATCH" ∨ r.method = "DELETE")
    (he : r.err = none)
    (htr : ∀ req, tr 0 req = TransportOutcome.err e) :
    (Do lib tr r).1.err = some (GoError.transport e) ∧ (Do lib tr r).2.calls = 1 ∧
    ∀ (tr2 : Transport) (s : ExecState) (e2 : NetErr), s.r.method = r.method →
      (∀ req, tr2 s.calls req = TransportOutcome.err e2) →
      (tryOnce lib tr2 s).2.2 = false := by
  have hne : r.method ≠ "GET" := by rcases hm with h | h | h | h <;> simp [h]
  have hvm : validMethod r.method = true := by
    rcases hm with h | h | h | h <;> simp [validMethod, h]
  have step : ∀ (tr2 : Transport) (s : ExecState) (e2 : NetErr), s.r.method = r.method →
      (∀ req, tr2 s.calls req = TransportOutcome.err e2) →
      (tryOnce lib tr2 s).2 = ({ err := some (GoError.transport e2) }, false) ∧
      (tryOnce lib tr2 s).1.calls = s.calls + 1 := by
    intro tr2 s e2 hsm htr2
    obtain ⟨e0, hw⟩ := wrapURL_shape lib s.r
    have hvm2 : validMethod ({ s.r with err := e0 } : request).method = true := by
      show validMethod s.r.method = true
      rw [hsm]; exact hvm
    have hne2 : ¬({ s.r with err := e0 } : request).method = "GET" := by
      show ¬s.r.method = "GET"
      rw [hsm]; exact hne
    simp only [tryOnce, hw, htr2, hvm2, Bool.true_eq_false, if_false]
    split <;> simp [hne2]
  obtain ⟨h1, h2⟩ := step tr ⟨r, 0⟩ e rfl htr
  have h2n : (tryOnce lib tr ⟨r, 0⟩).1.calls = 1 := h2
  constructor
  · simp only [Do, he]
    simp [h1]
  · constructor
    · simp only [Do, he]
      simp [h1, h2n]
    · intro tr2 s e2 hsm htr2
      rw [(step tr2 s e2 hsm htr2).1]

/-- Witness for the amended C2 at a concrete POST configuration whose
transport refuses the connection. -/
theorem C2_witness :
    (Do toyLib trRefused reqPOST).1.err =
      some (GoError.transport (NetErr.other "connection refused")) ∧
    (Do toyLib trRefused reqPOST).2.calls = 1 := by
  have h := C2_nonget_transport_failure_fatal toyLib trRefused
    (NetErr.other "connection refused") reqPOST (Or.inl rfl) rfl (fun req => rfl)
  exact ⟨h.1, h.2.1⟩

/-- With err still unset, `Do` is the first attempt followed, on a
retryable outcome, by the bounded loop. -/
theorem Do_eq_of_err_none (lib : Stdlib) (tr : Transport) (r : request)
    (he : r.err = none) :
    Do lib tr r = (if (tryOnce lib tr ⟨r, 0⟩).2.2 = false
      then ((tryOnce lib tr ⟨r, 0⟩).2.1, (tryOnce lib tr ⟨r, 0⟩).1)
      else doRetryLoop lib tr (tryOnce lib tr ⟨r, 0⟩).1.r.retryCount.toNat
        (tryOnce lib tr ⟨r, 0⟩).1 (tryOnce lib tr ⟨r, 0⟩).2.1) := by
  simp [Do, he]

/-- A set terminal error makes `Do` return it with no transport
invocation. -/
theorem Do_err_short (lib : Stdlib) (tr : Transport) (r : request) (e : GoError)
    (he : r.err = some e) : Do lib tr r = ({ err := some e }, ⟨r, 0⟩) := by
  simp [Do, he]

/-- An attempt on a request whose non-empty base URL does not parse
records the parse error on the request and still makes one transport
invocation. -/
theorem tryOnce_badURL (lib : Stdlib) (tr : Transport) (s : ExecState)
    (hb : s.r.baseURL ≠ "") (hp : lib.parseURL s.r.baseURL = none)
    (hv : validMethod s.r.method = true) :
    (tryOnce lib tr s).1.r.err = some (GoError.urlParse s.r.baseURL) ∧
    (tryOnce lib tr s).1.calls = s.calls + 1 := by
  have hlen : s.r.baseURL.length ≠ 0 := by
    intro h0
    have h0d : s.r.baseURL.data.length = 0 := h0
    exact hb (String.ext (List.length_eq_zero.mp h0d))
  have hw : (wrapURL lib s.r).1 = { s.r with err := some (GoError.urlParse s.r.baseURL) } := by
    unfold wrapURL
    rw [hp, if_pos hlen]
  have hv2 : validMethod ({ s.r with err := some (GoError.urlParse s.r.baseURL) } : request).method = true := hv
  simp only [tryOnce, hw, hv2, Bool.true_eq_false, if_false]
  split <;> split <;> split <;> simp

/-- Once the loop runs on a request whose recorded error is the parse
error of its unparseable base URL, the error survives every further
attempt and the invocation count never decreases. -/
theorem doRetryLoop_badURL (lib : Stdlib) (tr : Transport) (B : String)
    (hB : B ≠ "") (hp : lib.parseURL B = none) :
    ∀ (n : Nat) (s : ExecState) (rt : result),
      s.r.baseURL = B → validMethod s.r.method = true →
      s.r.err = some (GoError.urlParse B) →
      (doRetryLoop lib tr n s rt).2.r.err = some (GoError.urlParse B) ∧
      s.calls ≤ (doRetryLoop lib tr n s rt).2.calls := by
  intro n
  induction n with
  | zero =>
      intro s rt h1 h2 h3
      exact ⟨h3, le_refl _⟩
  | succ n ih =>
      intro s rt h1 h2 h3
      have hb' : s.r.baseURL ≠ "" := by rw [h1]; exact hB
      have hp' : lib.parseURL s.r.baseURL = none := by rw [h1]; exact hp
      obtain ⟨he', hc'⟩ := tryOnce_badURL lib tr s hb' hp' h2
      obtain ⟨hfm, _, hfb, _⟩ := tryOnce_fields lib tr s
      simp only [doRetryLoop]
      split
      · have hrec := ih (tryOnce lib tr s).1 (tryOnce lib tr s).2.1
          (by rw [hfb, h1]) (by rw [hfm]; exact h2) (by rw [he', h1])
        exact ⟨hrec.1, by omega⟩
      · refine ⟨by rw [he', h1], ?_⟩
        show s.calls ≤ (tryOnce lib tr s).1.calls
        omega

/-- Claim C3 amended: for every configuration whose non-empty base URL
cannot be parsed and whose error is not yet set, the first `Do` still
invokes the transport (at least once) and records the URL-parse error on
the configuration; every subsequent `Do` then returns exactly the
URL-parse configuration error with zero transport invocations. -/
theorem C3_badURL_deferred (lib : Stdlib) (tr : Transport) (r : request)
    (hb : r.baseURL ≠ "") (hp : lib.parseURL r.baseURL = none)
    (he : r.err = none) (hv : validMethod r.method = true) :
    1 ≤ (Do lib tr r).2.calls ∧
    (Do lib tr r).2.r.err = some (GoError.urlParse r.baseURL) ∧
    ∀ tr2 : Transport, Do lib tr2 (Do lib tr r).2.r =
      ({ err := some (GoError.urlParse r.baseURL) }, ⟨(Do lib tr r).2.r, 0⟩) := by
  obtain ⟨he1, hc1⟩ := tryOnce_badURL lib tr ⟨r, 0⟩ hb hp hv
  have hc1n : (tryOnce lib tr ⟨r, 0⟩).1.calls = 1 := hc1
  obtain ⟨hfm, _, hfb, _⟩ := tryOnce_fields lib tr ⟨r, 0⟩
  have key : 1 ≤ (Do lib tr r).2.calls ∧
      (Do lib tr r).2.r.err = some (GoError.urlParse r.baseURL) := by
    rw [Do_eq_of_err_none lib tr r he]
    cases hret : (tryOnce lib tr ⟨r, 0⟩).2.2 with
    | false =>
        rw [if_pos rfl]
        refine ⟨?_, he1⟩
        show 1 ≤ (tryOnce lib tr ⟨r, 0⟩).1.calls
        omega
    | true =>
        rw [if_neg (by simp)]
        obtain ⟨hrec1, hrec2⟩ := doRetryLoop_badURL lib tr r.baseURL hb hp
          (tryOnce lib tr ⟨r, 0⟩).1.r.retryCount.toNat (tryOnce lib tr ⟨r, 0⟩).1
          (tryOnce lib tr ⟨r, 0⟩).2.1 hfb (by rw [hfm]; exact hv) he1
        exact ⟨by omega, hrec1⟩
  refine ⟨key.1, key.2, ?_⟩
  intro tr2
  exact Do_err_short lib tr2 (Do lib tr r).2.r (GoError.urlParse r.baseURL) key.2

/-- Counterexample to claim C3 as stated: with the unparseable base URL
of `reqBadURL`, the first `Do` does invoke the transport (once) and the
returned result carries the transport's dial error, not the URL-parse
configuration error. -/
theorem C3_counterexample :
    reqBadURL.baseURL = ":" ∧ toyLib.parseURL ":" = none ∧
    (Do toyLib trDial reqBadURL).2.calls = 1 ∧
    (Do toyLib trDial reqBadURL).1.err = some (GoError.transport (NetErr.other "dial")) := by
  exact ⟨rfl, rfl, by decide, by decide⟩

/-- Witness for the amended C3 at the concrete bad-URL configuration. -/
theorem C3_witness :
    1 ≤ (Do toyLib trDial reqBadURL).2.calls ∧
    (Do toyLib trDial reqBadURL).2.r.err = some (GoError.urlParse ":") ∧
    (Do toyLib trDial (Do toyLib trDial reqBadURL).2.r) =
      ({ err := some (GoError.urlParse ":") }, ⟨(Do toyLib trDial reqBadURL).2.r, 0⟩) := by
  have h := C3_badURL_deferred toyLib trDial reqBadURL (by decide) rfl rfl rfl
  exact ⟨h.1, h.2.1, h.2.2 trDial⟩

/-- A builder operation changes the recorded error only when it is a
body set whose serialization fails. -/
theorem applyOp_err (r : request) (op : BuilderOp) :
    (applyOp r op).err = r.err ∨
    (isFailingBody op = true ∧ (applyOp r op).err.isSome = true) := by
  cases op with
  | withParam n v => exact Or.inl rfl
  | withParams ps => exact Or.inl rfl
  | withHeader h =>
      left
      simp only [applyOp, WithHeader]
      split <;> rfl
  | withContext => exact Or.inl rfl
  | withTimeout d => exact Or.inl rfl
  | withMaxRetry n => exact Or.inl rfl
  | withRetryInterval d => exact Or.inl rfl
  | subResourcef t args => exact Or.inl rfl
  | bodyOp b =>
      cases b with
      | null => exact Or.inl rfl
      | jsonOk d => exact Or.inl rfl
      | jsonErr m => exact Or.inr ⟨rfl, rfl⟩

/-- Along any chain of builder operations, a set error stays set, and if
no operation is a failing body set it stays the same error. -/
theorem applyOps_err (ops : List BuilderOp) :
    ∀ r : request, r.err.isSome = true →
      (applyOps ops r).err.isSome = true ∧
      ((∀ op ∈ ops, isFailingBody op = false) → (applyOps ops r).err = r.err) := by
  induction ops with
  | nil => intro r h; exact ⟨h, fun _ => rfl⟩
  | cons op rest ih =>
      intro r h
      have hstep := applyOp_err r op
      have hnext : (applyOp r op).err.isSome = true := by
        rcases hstep with h1 | ⟨_, h2⟩
        · rw [h1]; exact h
        · exact h2
      obtain ⟨ih1, ih2⟩ := ih (applyOp r op) hnext
      refine ⟨ih1, ?_⟩
      intro hnb
      have hop : (applyOp r op).err = r.err := by
        rcases hstep with h1 | ⟨hf, _⟩
        · exact h1
        · have := hnb op (List.mem_cons_self _ _)
          rw [hf] at this
          cases this
      show (applyOps rest (applyOp r op)).err = r.err
      rw [ih2 (fun o ho => hnb o (List.mem_cons_of_mem _ ho)), hop]

/-- Claim C5: once the terminal construction error is set, no chain of
builder operations clears it, and `Do` then returns the (current)
terminal error with zero transport invocations; when the chain contains
no failing body set, that error is exactly the one originally set. -/
theorem C5_terminal_error_sticky (lib : Stdlib) (tr : Transport)
    (ops : List BuilderOp) (r : request) (e : GoError) (he : r.err = some e) :
    (applyOps ops r).err.isSome = true ∧
    (∃ e2, (applyOps ops r).err = some e2 ∧
      Do lib tr (applyOps ops r) = ({ err := some e2 }, ⟨applyOps ops r, 0⟩)) ∧
    ((∀ op ∈ ops, isFailingBody op = false) →
      Do lib tr (applyOps ops r) = ({ err := some e }, ⟨applyOps ops r, 0⟩)) := by
  have h0 : r.err.isSome = true := by rw [he]; rfl
  obtain ⟨h1, h2⟩ := applyOps_err ops r h0
  obtain ⟨e2, he2⟩ := Option.isSome_iff_exists.mp h1
  refine ⟨h1, ⟨e2, he2, Do_err_short lib tr _ e2 he2⟩, ?_⟩
  intro hnb
  have hsame : (applyOps ops r).err = some e := by rw [h2 hnb, he]
  exact Do_err_short lib tr _ e hsame

/-- Witness for C5 at a concrete errored configuration and a concrete
benign chain. -/
theorem C5_witness :
    (applyOps opsW reqErr).err.isSome = true ∧
    Do toyLib trDial (applyOps opsW reqErr) =
      ({ err := some (GoError.marshal "boom") }, ⟨applyOps opsW reqErr, 0⟩) := by
  have h := C5_terminal_error_sticky toyLib trDial opsW reqErr (GoError.marshal "boom") rfl
  exact ⟨h.1, h.2.2 (by decide)⟩

/-- Claim C4: `Into` surfaces a set terminal error unchanged, and with no
target shape and no error it returns success whatever the stored bytes
and status code. -/
theorem C4_into_terminal_and_no_target (dec : List Nat → Option String)
    (r : result) (objPresent : Bool) (e : GoError) :
    (r.err = some e → (Into dec r objPresent).1 = some e) ∧
    (r.err = none → (Into dec r false).1 = none) := by
  constructor
  · intro h; simp [Into, h]
  · intro h; simp [Into, h]

/-- Witness for C4: a stored error is surfaced through a failing decoder,
and a nil target succeeds on a non-200, non-empty-body result. -/
theorem C4_witness :
    (Into dec0 resErr true).1 = some (GoError.goNew "boom") ∧
    (Into dec0 resBody false).1 = none := by
  have h1 := C4_into_terminal_and_no_target dec0 resErr true (GoError.goNew "boom")
  have h2 := C4_into_terminal_and_no_target dec0 resBody false (GoError.goNew "boom")
  exact ⟨h1.1 rfl, h2.2 rfl⟩

/-- Claim C8: `Into` never mutates the result, so calling it twice with
the same target shape gives the same outcome both times. -/
theorem C8_into_idempotent (dec : List Nat → Option String) (r : result) (objPresent : Bool) :
    (Into dec r objPresent).2 = r ∧
    Into dec ((Into dec r objPresent).2) objPresent = Into dec r objPresent := by
  have hfix : (Into dec r objPresent).2 = r := by
    unfold Into
    split
    · rfl
    · split
      · split
        · rfl
        · split <;> rfl
      · rfl
  exact ⟨hfix, by rw [hfix]⟩

/-- Claim C9: in the revision with a `StatusCode` accessor, calling it
with a non-nil pointer leaves the caller's integer unchanged (the
assignment rebinds only the local parameter, to the result's own field)
and returns the receiver unmodified. -/
theorem C9_statuscode_frames_caller (r : result) (v : Int) (p : Option IntPtr)
    (hp : p ≠ none) :
    (StatusCode r v p).2.1 = v ∧ (StatusCode r v p).1 = r ∧
    (StatusCode r v p).2.2 = some IntPtr.resultField := by
  cases p with
  | none => exact absurd rfl hp
  | some q => exact ⟨rfl, rfl, rfl⟩

/-- Witness for C9 with the caller's pointer designating the caller's
own cell holding 7. -/
theorem C9_witness :
    (StatusCode resBody 7 (some IntPtr.callerCell)).2.1 = 7 ∧
    (StatusCode resBody 7 (some IntPtr.callerCell)).1 = resBody ∧
    (StatusCode resBody 7 (some IntPtr.callerCell)).2.2 = some IntPtr.resultField :=
  C9_statuscode_frames_caller resBody 7 (some IntPtr.callerCell) (by decide)

/-- The header key set by `Values.set` maps to exactly the one value
set. -/
theorem headerEntry_set_self (vs : Values) (k v : String) :
    headerEntry (Values.set vs k v) k = some [v] := by
  unfold headerEntry Values.set
  rw [List.find?_append]
  have hnone : List.find? (fun p => p.1 == k) (vs.filter (fun p => !(p.1 == k))) = none := by
    rw [List.find?_eq_none]
    intro x hx
    have hxf := (List.mem_filter.mp hx).2
    simp at hxf ⊢
    exact hxf
  rw [hnone]
  simp

/-- Claim C6 amended: `SetBasicAuth` is applied unconditionally, so every
wire request built by the executor carries an `Authorization` header with
the encoded credential pair, even when both username and password are
empty. -/
theorem C6_auth_always_applied (r : request) (u : String) :
    headerEntry (buildWireRequest r u).header "Authorization" =
      some ["Basic " ++ basicAuthEncode r.username r.password] := by
  simp only [buildWireRequest]
  exact headerEntry_set_self _ _ _

/-- Counterexample to claim C6 as stated: with both credentials empty, an
`Authorization` header is still attached to the wire request. -/
theorem C6_counterexample :
    reqPOST.username = "" ∧ reqPOST.password = "" ∧
    headerEntry (buildWireRequest reqPOST "http://h").header "Authorization" ≠ none := by
  exact ⟨rfl, rfl, by decide⟩

/-- Key lookup on the empty map is empty. -/
theorem Values.get_nil (k : String) : Values.get [] k = [] := rfl

/-- Key lookup on a cons: the head entry contributes its values exactly
when its key matches. -/
theorem Values.get_cons (p : String × List String) (vs : Values) (k : String) :
    Values.get (p :: vs) k = (if p.1 = k then p.2 else []) ++ Values.get vs k := by
  unfold Values.get
  by_cases h : p.1 = k
  · simp [List.filter_cons, h]
  · simp [List.filter_cons, h]

/-- The keys after an add: unchanged when the key already occurs,
otherwise the key is appended. -/
theorem fst_add (vs : Values) (key v : String) :
    (Values.add vs key v).map Prod.fst =
      if key ∈ vs.map Prod.fst then vs.map Prod.fst else vs.map Prod.fst ++ [key] := by
  induction vs with
  | nil => simp [Values.add]
  | cons p rest ih =>
      unfold Values.add
      by_cases hp : p.1 = key
      · simp [hp]
      · have hne : ¬key = p.1 := fun h => hp h.symm
        rw [if_neg hp]
        simp only [List.map_cons, List.mem_cons, hne, false_or]
        rw [ih]
        split <;> simp

/-- Adding preserves uniqueness of keys. -/
theorem nodup_add (vs : Values) (key v : String)
    (h : (vs.map Prod.fst).Nodup) : ((Values.add vs key v).map Prod.fst).Nodup := by
  rw [fst_add]
  split
  · exact h
  · rename_i hnot
    rw [List.nodup_append]
    refine ⟨h, List.nodup_singleton _, ?_⟩
    intro a ha hb
    simp at hb
    rw [hb] at ha
    exact hnot ha

/-- A key absent from the key list looks up empty. -/
theorem Values.get_eq_nil_of_not_mem (vs : Values) (k : String)
    (h : k ∉ vs.map Prod.fst) : Values.get vs k = [] := by
  induction vs with
  | nil => rfl
  | cons p rest ih =>
      rw [Values.get_cons]
      simp only [List.map_cons, List.mem_cons] at h
      push_neg at h
      rw [if_neg (fun hh => h.1 hh.symm), ih h.2]
      rfl

/-- Adding under unique keys appends the value to the key's list and
leaves every other key unchanged. -/
theorem Values.get_add (vs : Values) (key v k : String)
    (h : (vs.map Prod.fst).Nodup) :
    Values.get (Values.add vs key v) k =
      if key = k then Values.get vs k ++ [v] else Values.get vs k := by
  induction vs with
  | nil =>
      by_cases hk : key = k <;>
        simp [Values.add, Values.get_cons, Values.get_nil, hk]
  | cons p rest ih =>
      simp only [List.map_cons, List.nodup_cons] at h
      obtain ⟨hpnot, hrest⟩ := h
      unfold Values.add
      by_cases hp : p.1 = key
      · rw [if_pos hp, Values.get_cons, Values.get_cons]
        by_cases hk : p.1 = k
        · have hkey : key = k := hp ▸ hk
          have hrnil : Values.get rest k = [] :=
            Values.get_eq_nil_of_not_mem rest k (hk ▸ hpnot)
          rw [if_pos hk, if_pos hk, if_pos hkey, hrnil]
          simp
        · have hkey : ¬key = k := fun hh => hk (hp.symm ▸ hh)
          rw [if_neg hk, if_neg hk, if_neg hkey]
      · rw [if_neg hp, Values.get_cons, Values.get_cons, ih hrest]
        by_cases hk2 : key = k
        · rw [if_pos hk2, if_pos hk2, List.append_assoc]
        · rw [if_neg hk2, if_neg hk2]

/-- Folding the values of one key into an accumulator with unique keys
appends them all under that key, preserving uniqueness. -/
theorem get_addValues (key : String) (l : List String) :
    ∀ (q : Values) (k : String), (q.map Prod.fst).Nodup →
      Values.get (l.foldl (fun a v => Values.add a key v) q) k =
        Values.get q k ++ (if key = k then l else []) ∧
      ((l.foldl (fun a v => Values.add a key v) q).map Prod.fst).Nodup := by
  induction l with
  | nil =>
      intro q k h
      exact ⟨by simp, h⟩
  | cons x xs ih =>
      intro q k h
      have hq2 := nodup_add q key x h
      obtain ⟨ih1, ih2⟩ := ih (Values.add q key x) k hq2
      refine ⟨?_, ih2⟩
      simp only [List.foldl_cons]
      rw [ih1, Values.get_add q key x k h]
      by_cases hk : key = k
      · simp [hk, List.append_assoc]
      · simp [hk]

/-- Copying a parameter multimap entry by entry into an accumulator with
unique keys concatenates the lookups, preserving uniqueness. -/
theorem get_copy (entries : Values) :
    ∀ (q : Values) (k : String), (q.map Prod.fst).Nodup →
      Values.get
        (entries.foldl (fun q2 p => p.2.foldl (fun a v => Values.add a p.1 v) q2) q) k =
        Values.get q k ++ Values.get entries k ∧
      ((entries.foldl
        (fun q2 p => p.2.foldl (fun a v => Values.add a p.1 v) q2) q).map Prod.fst).Nodup := by
  induction entries with
  | nil => intro q k h; exact ⟨by simp [Values.get_nil], h⟩
  | cons p rest ih =>
      intro q k h
      obtain ⟨hs1, hs2⟩ := get_addValues p.1 p.2 q k h
      obtain ⟨ih1, ih2⟩ := ih (p.2.foldl (fun a v => Values.add a p.1 v) q) k hs2
      refine ⟨?_, ih2⟩
      simp only [List.foldl_cons]
      rw [ih1, hs1, Values.get_cons]
      by_cases hk : p.1 = k
      · simp [hk, List.append_assoc]
      · simp [hk]

/-- Setting a key maps it to exactly the one value and leaves every
other key's lookup unchanged. -/
theorem Values.get_set (vs : Values) (key v k : String) :
    Values.get (Values.set vs key v) k = if key = k then [v] else Values.get vs k := by
  unfold Values.set Values.get
  rw [List.filter_append]
  by_cases h : key = k
  · subst h
    rw [List.filter_filter]
    have hnil : List.filter (fun a => (a.1 == key) && !(a.1 == key)) vs = [] := by
      apply List.filter_eq_nil_iff.mpr
      intro a ha
      simp
    rw [hnil]
    simp
  · have hcong : List.filter (fun p => p.1 == k) (vs.filter (fun p => !(p.1 == key))) =
        List.filter (fun p => p.1 == k) vs := by
      rw [List.filter_filter]
      apply List.filter_congr
      intro a ha
      by_cases hak : a.1 = k
      · have hkk : ¬k = key := fun hh => h hh.symm
        simp [hak, hkk]
      · simp [hak]
    rw [hcong]
    have hone : List.filter (fun p => p.1 == k) [(key, [v])] = [] := by
      simp [List.filter_cons, h]
    rw [hone]
    simp [h]

/-- The lookup of `buildQuery`: the `timeout` key is forced to the single
duration value when a non-zero timeout is configured; every other key,
and every key when no timeout is configured, passes through from the
parameter multimap. -/
theorem get_buildQuery (r : request) (k : String) :
    Values.get (buildQuery r) k =
      if r.timeout ≠ 0 then
        (if "timeout" = k then [durationString r.timeout] else Values.get r.params k)
      else Values.get r.params k := by
  unfold buildQuery
  have hc := (get_copy r.params [] k (by simp)).1
  rw [Values.get_nil] at hc
  by_cases ht : r.timeout ≠ 0
  · rw [if_pos ht, if_pos ht, Values.get_set, hc]
    simp
  · rw [if_neg ht, if_neg ht, hc]
    simp

/-- Claim C10: with a non-zero timeout, URL composition maps the
`timeout` query key to exactly the one textual duration value, replacing
any caller-supplied values, while every other key passes through
unchanged; with no timeout configured, every key (the caller's `timeout`
values included) passes through unchanged. -/
theorem C10_timeout_set_replaces (r : request) (k : String) :
    (r.timeout ≠ 0 →
      Values.get (buildQuery r) "timeout" = [durationString r.timeout] ∧
      (k ≠ "timeout" → Values.get (buildQuery r) k = Values.get r.params k)) ∧
    (r.timeout = 0 → Values.get (buildQuery r) k = Values.get r.params k) := by
  constructor
  · intro ht
    constructor
    · rw [get_buildQuery, if_pos ht, if_pos rfl]
    · intro hk
      rw [get_buildQuery, if_pos ht, if_neg (fun hh => hk hh.symm)]
  · intro ht
    rw [get_buildQuery, if_neg (fun hh => hh ht)]

/-- Witness for C10 on concrete configurations with and without a
timeout. -/
theorem C10_witness :
    Values.get (buildQuery req10) "timeout" = [durationString 5] ∧
    Values.get (buildQuery req10) "a" = ["1"] ∧
    Values.get (buildQuery req10z) "timeout" = ["9"] := by
  have h1 := C10_timeout_set_replaces req10 "a"
  have h2 := C10_timeout_set_replaces req10z "timeout"
  refine ⟨(h1.1 (by decide)).1, ?_, ?_⟩
  · rw [(h1.1 (by decide)).2 (by decide)]
    decide
  · rw [h2.2 rfl]
    decide

/-- A value looked up under a key comes from some entry of the map with
that key. -/
theorem exists_entry_of_mem_get (vs : Values) (k v : String)
    (h : v ∈ Values.get vs k) : ∃ p ∈ vs, p.1 = k ∧ v ∈ p.2 := by
  unfold Values.get at h
  obtain ⟨l, hl, hv⟩ := List.mem_flatten.mp h
  obtain ⟨p, hp, hpl⟩ := List.mem_map.mp hl
  have hf := List.mem_filter.mp hp
  refine ⟨p, hf.1, ?_, ?_⟩
  · simpa using hf.2
  · rw [hpl]; exact hv

/-- Membership is invariant under the insertion step of the key sort. -/
theorem mem_insertSorted (q p : String × List String) (l : Values) :
    q ∈ insertSorted p l ↔ q = p ∨ q ∈ l := by
  induction l with
  | nil => simp [insertSorted]
  | cons x rest ih =>
      unfold insertSorted
      split
      · simp only [List.mem_cons]
      · simp only [List.mem_cons, ih]
        tauto

/-- Membership is invariant under the key sort. -/
theorem mem_sortByKey (p : String × List String) (vs : Values) :
    p ∈ sortByKey vs ↔ p ∈ vs := by
  induction vs with
  | nil => simp [sortByKey]
  | cons x rest ih =>
      show p ∈ insertSorted x (sortByKey rest) ↔ _
      rw [mem_insertSorted]
      simp [List.mem_cons, ih]

/-- Every piece of the ampersand join occurs inside it. -/
theorem infix_joinAmp (s : String) :
    ∀ l : List String, s ∈ l → s.data <:+: (joinAmp l).data := by
  intro l
  induction l with
  | nil => intro h; cases h
  | cons t rest ih =>
      intro h
      cases rest with
      | nil =>
          have hst : s = t := by simpa using h
          subst hst
          rw [joinAmp]
      | cons u rest2 =>
          rw [joinAmp]
          rcases List.mem_cons.mp h with hst | hmem
          · refine ⟨[], (("&" : String) ++ joinAmp (u :: rest2)).data, ?_⟩
            subst hst
            simp [String.data_append]
          · obtain ⟨a, b, hab⟩ := ih hmem
            refine ⟨(t ++ "&").data ++ a, b, ?_⟩
            rw [List.append_assoc, List.append_assoc, ← List.append_assoc a, hab]
            simp [String.data_append]

/-- Every value stored under a key appears in the encoded query string as
its escaped `key=value` piece. -/
theorem infix_encode_of_mem (vs : Values) (k v : String)
    (h : v ∈ Values.get vs k) :
    (queryEscape k ++ "=" ++ queryEscape v).data <:+: (Values.Encode vs).data := by
  obtain ⟨p, hp, hk, hv⟩ := exists_entry_of_mem_get vs k v h
  apply infix_joinAmp
  rw [List.mem_flatMap]
  refine ⟨p, (mem_sortByKey p vs).mpr hp, ?_⟩
  rw [List.mem_map]
  exact ⟨v, hv, by rw [hk]⟩

/-- For a base URL that is empty or parses, the composed URL's raw query
is exactly the encoded built query. -/
theorem wrapURL_rawQuery (lib : Stdlib) (r : request)
    (hok : r.baseURL = "" ∨ lib.parseURL r.baseURL ≠ none) :
    (wrapURL lib r).2.rawQuery = Values.Encode (buildQuery r) := by
  unfold wrapURL
  by_cases hl : r.baseURL.length ≠ 0
  · rw [if_pos hl]
    rcases hok with hb | hp
    · exact absurd (by rw [hb]; rfl) hl
    · rcases hparse : lib.parseURL r.baseURL with _ | u
      · exact absurd hparse hp
      · rfl
  · rw [if_neg hl]

/-- Any parameter value under a key other than `timeout` shows up in the
composed URL's query string as its escaped `key=value` piece, provided
the base URL is empty or parses. -/
theorem wrapURL_contains (lib : Stdlib) (r : request) (k v : String)
    (hok : r.baseURL = "" ∨ lib.parseURL r.baseURL ≠ none)
    (hk : ¬"timeout" = k)
    (hv : v ∈ Values.get r.params k) :
    (queryEscape k ++ "=" ++ queryEscape v).data <:+: ((wrapURL lib r).2.rawQuery).data := by
  rw [wrapURL_rawQuery lib r hok]
  apply infix_encode_of_mem
  rw [get_buildQuery]
  by_cases ht : r.timeout ≠ 0
  · rw [if_pos ht, if_neg hk]
    exact hv
  · rw [if_neg ht]
    exact hv

/-- Claim C7: `WithParam` always appends to the query multimap and never
replaces an existing value: after limit=10 then limit=20, the limit key
holds its previous values extended with both, and (for a base URL that
is empty or parses) the composed URL's query string contains both
`limit=10` and `limit=20`. -/
theorem C7_withparam_appends (lib : Stdlib) (r : request)
    (hwf : (r.params.map Prod.fst).Nodup)
    (hok : r.baseURL = "" ∨ lib.parseURL r.baseURL ≠ none) :
    Values.get (WithParam (WithParam r "limit" "10") "limit" "20").params "limit" =
      Values.get r.params "limit" ++ ["10", "20"] ∧
    "limit=10".data <:+:
      ((wrapURL lib (WithParam (WithParam r "limit" "10") "limit" "20")).2.rawQuery).data ∧
    "limit=20".data <:+:
      ((wrapURL lib (WithParam (WithParam r "limit" "10") "limit" "20")).2.rawQuery).data := by
  have hwf2 : ((Values.add r.params "limit" "10").map Prod.fst).Nodup :=
    nodup_add _ _ _ hwf
  have hpar : Values.get (WithParam (WithParam r "limit" "10") "limit" "20").params "limit" =
      Values.get r.params "limit" ++ ["10", "20"] := by
    show Values.get (Values.add (Values.add r.params "limit" "10") "limit" "20") "limit" = _
    rw [Values.get_add _ _ _ _ hwf2, if_pos rfl, Values.get_add _ _ _ _ hwf, if_pos rfl,
      List.append_assoc]
    rfl
  have h10 := wrapURL_contains lib (WithParam (WithParam r "limit" "10") "limit" "20")
    "limit" "10" hok (by decide) (by rw [hpar]; simp)
  have h20 := wrapURL_contains lib (WithParam (WithParam r "limit" "10") "limit" "20")
    "limit" "20" hok (by decide) (by rw [hpar]; simp)
  refine ⟨hpar, ?_, ?_⟩
  · have heq : ("limit=10" : String) = queryEscape "limit" ++ "=" ++ queryEscape "10" := by
      decide
    rw [heq]
    exact h10
  · have heq : ("limit=20" : String) = queryEscape "limit" ++ "=" ++ queryEscape "20" := by
      decide
    rw [heq]
    exact h20

/-- Witness for C7 at the default configuration. -/
theorem C7_witness :
    Values.get (WithParam (WithParam ({} : request) "limit" "10") "limit" "20").params "limit" =
      Values.get ({} : request).params "limit" ++ ["10", "20"] ∧
    "limit=10".data <:+:
      ((wrapURL toyLib
        (WithParam (WithParam ({} : request) "limit" "10") "limit" "20")).2.rawQuery).data ∧
    "limit=20".data <:+:
      ((wrapURL toyLib
        (WithParam (WithParam ({} : request) "limit" "10") "limit" "20")).2.rawQuery).data :=
  C7_withparam_appends toyLib {} (by decide) (Or.inl rfl)

end rest
